import Mathlib

/-!
Shallow embedding of the DownloadStation core (src/core/download_thread.py,
src/core/playlist_loader.py, src/core/settings.py) and proofs about the
claims of the spec over it.

Conventions of the embedding:
* Python strings are Lean `String`; `str.lower()` is `lowerStr` (ASCII case
  folding, which agrees with Python on all messages considered here).
* Signal emissions (`progress_updated`, `download_completed`,
  `download_failed`, `retry_status`) become `Event` values appended to a
  trace in order of emission.
* The `is_cancelled` flag is set asynchronously by `cancel()`; we model it
  by a millisecond clock: the flag reads true at every model time `t` with
  `cv ≤ t` where `some cv` is the (optional) cancellation instant.  Reads
  and emissions are instantaneous; `msleep(1000)` advances the clock by
  1000; the engine calls advance it by durations chosen
  by the engine model (`Oracle`).
* The yt-dlp engine is a black-box capability (`Oracle`): per attempt (or
  per playlist entry) it either raises with a message or succeeds, and
  reports the progress-hook callbacks it delivered along the way.
-/

namespace DS

/-! ### String helpers (Python `in` / `.lower()`) -/

/-- ASCII lower-casing of a string, modelling Python `str.lower()` on the
ASCII messages used by the program. -/
def lowerStr (s : String) : String :=
  String.mk (s.toList.map Char.toLower)

/-- `leadsWith n h` holds when the character list `h` starts with `n`. -/
def leadsWith : List Char → List Char → Bool
  | [], _ => true
  | _ :: _, [] => false
  | a :: as, b :: bs => a == b && leadsWith as bs

/-- `containsSub n h` models the Python substring test `n in h` on character
lists. -/
def containsSub (needle : List Char) : List Char → Bool
  | [] => leadsWith needle []
  | c :: rest => leadsWith needle (c :: rest) || containsSub needle rest

/-- Python truthiness for an optional string: `None` and `""` are falsy. -/
def truthy : Option String → Option String
  | none => none
  | some s => if s = "" then none else some s

/-- Models `a or b` under an enclosing truthiness test (`x = a or b` then
`if x:`): the first truthy operand, if any. -/
def truthyOr (a b : Option String) : Option String :=
  match truthy a with
  | some s => some s
  | none => truthy b

/-! ### ErrorClassifier — `DownloadThread.is_retryable_error` (lines 222-238) -/

/-- The fixed retryable-error vocabulary from `is_retryable_error`. -/
def retryableErrors : List String :=
  ["timeout", "connection", "network", "http error 5", "temporary failure",
   "unable to download", "fragment", "socket", "http error 416", "ssl"]

/-- `DownloadThread.is_retryable_error`: case-insensitive substring match of
the message against the fixed vocabulary. -/
def is_retryable_error (msg : String) : Bool :=
  retryableErrors.any (fun e => containsSub e.toList (lowerStr msg).toList)

/-- The 416/byte-range test guarding `cleanup_partial_files` in the retry
handler (line 173): `"416" in error_msg or "range not satisfiable" in
error_msg.lower()`. -/
def needsRangeCleanup (msg : String) : Bool :=
  containsSub "416".toList msg.toList ||
    containsSub "range not satisfiable".toList (lowerStr msg).toList

/-! ### ProgressFormatter — `format_speed`, `format_file_size`, `format_eta`
(lines 273-304).  A formatted quantity is kept structured: the scaled
numeric value (exact, as a rational — division by a power of 1024 is exact
in the floating point of the source for realistic byte counts), the number of
decimal places the f-string prints, and the unit suffix. -/

/-- Structured result of the f-string formatting in `format_speed` /
`format_file_size`: either an integral rendering with no decimal places, or
a scaled value rendered with exactly one decimal place. -/
inductive Fmt
  | whole (v : Nat) (unit : String)
  | oneDec (v : ℚ) (unit : String)
deriving DecidableEq, Repr

/-- Number of decimal places a `Fmt` prints. -/
def fmtDecimals : Fmt → Nat
  | .whole _ _ => 0
  | .oneDec _ _ => 1

/-- Unit suffix of a `Fmt`. -/
def fmtUnit : Fmt → String
  | .whole _ u => u
  | .oneDec _ u => u

/-- Exact scaled numeric value of a `Fmt`, before the one-decimal rounding
the `:.1f` f-string applies when rendering. -/
def fmtVal : Fmt → ℚ
  | .whole v _ => v
  | .oneDec v _ => v

/-- `DownloadThread.format_speed` (lines 273-280). -/
def format_speed (speed : Nat) : Fmt :=
  if speed < 1024 then .whole speed "B/s"
  else if speed < 1024 * 1024 then .oneDec ((speed : ℚ) / 1024) "KB/s"
  else .oneDec ((speed : ℚ) / (1024 * 1024)) "MB/s"

/-- `DownloadThread.format_file_size` (lines 282-291). -/
def format_file_size (size : Nat) : Fmt :=
  if size < 1024 then .whole size "B"
  else if size < 1024 * 1024 then .oneDec ((size : ℚ) / 1024) "KB"
  else if size < 1024 * 1024 * 1024 then .oneDec ((size : ℚ) / (1024 * 1024)) "MB"
  else .oneDec ((size : ℚ) / (1024 * 1024 * 1024)) "GB"

/-- Round-half-even of `10 * b / D` in exact integer arithmetic: the tenths
value the `:.1f` f-string prints for the quotient `b / D`.  For the
power-of-two divisors used by the formatters the binary double holds
`b / D` exactly (for any realistic byte count), and CPython then rounds
that value half-to-even to one decimal, which this reproduces. -/
def fmtTenths (b D : Nat) : Nat :=
  let q := 10 * b / D
  let r := 10 * b % D
  if 2 * r < D then q
  else if D < 2 * r then q + 1
  else if q % 2 = 0 then q else q + 1

/-- The numeric value `format_speed` actually renders, in tenths: the
integer itself in the byte bracket (`:.0f` on a whole number), the rounded
quotient in the KB/s and MB/s brackets. -/
def speed_display_tenths (b : Nat) : Nat :=
  if b < 1024 then 10 * b
  else if b < 1024 * 1024 then fmtTenths b 1024
  else fmtTenths b (1024 * 1024)

/-- The numeric value `format_file_size` actually renders, in tenths: the
integer itself in the byte bracket, the rounded quotient above it. -/
def size_display_tenths (b : Nat) : Nat :=
  if b < 1024 then 10 * b
  else if b < 1024 * 1024 then fmtTenths b 1024
  else if b < 1024 * 1024 * 1024 then fmtTenths b (1024 * 1024)
  else fmtTenths b (1024 * 1024 * 1024)

/-- Structured result of `format_eta` (lines 293-304). -/
inductive EtaFmt
  | secs (s : Nat)
  | minSec (m s : Nat)
  | hrMin (h m : Nat)
deriving DecidableEq, Repr

/-- `DownloadThread.format_eta`. -/
def format_eta (eta : Nat) : EtaFmt :=
  if eta < 60 then .secs eta
  else if eta < 3600 then .minSec (eta / 60) (eta % 60)
  else .hrMin (eta / 3600) (eta % 3600 / 60)

/-! ### SettingsManager (src/core/settings.py) -/

/-- `SettingsManager.add_recent_url` (lines 66-80): drop the first
occurrence of `url` if present, push `url` to the front, keep the first
10. -/
def add_recent_url (recent : List String) (url : String) : List String :=
  let r := if url ∈ recent then recent.erase url else recent
  (url :: r).take 10

/-- One record of the persisted `download_history` list. -/
structure HistEntry where
  url : String
  filename : String
  timestamp : String
  success : Bool
deriving DecidableEq, Repr

/-- `SettingsManager.add_download_history` (lines 82-98): push the new
entry to the front, keep the first 50. -/
def add_download_history (history : List HistEntry) (e : HistEntry) : List HistEntry :=
  (e :: history).take 50

/-! ### PlaylistDiscovery — `PlaylistInfoThread.run` (src/core/playlist_loader.py)

The flat extraction returns a list of raw entries, each either `null`
(removed/private video) or a dictionary whose relevant keys we model as
optional fields (`none` = key absent).  Cancellation reads are indexed by a
read counter `k` consulted through a boolean schedule `can`. -/

/-- A raw playlist entry as returned by flat extraction (`None` entries are
`Option.none` at the outer level). -/
structure RawEntry where
  id : Option String
  title : Option String
  duration : Option Nat
  uploader : Option String
deriving DecidableEq, Repr

/-- An enhanced entry as synthesized at lines 67-77 of playlist_loader.py. -/
structure EnhancedEntry where
  id : String
  videoId : String
  title : String
  duration : Option Nat
  uploader : String
  url : String
  webpageUrl : String
  typeTag : String
  ieKey : String
deriving DecidableEq, Repr

/-- Events emitted by `PlaylistInfoThread.run` on its three signals. -/
inductive PLEvent
  | progress (total loaded : Nat) (title : String)
  | infoLoaded (entries : List EnhancedEntry)
  | infoLoadedSingle (title : String)
  | loadingFailed (msg : String)
deriving DecidableEq, Repr

/-- Builds the enhanced entry for raw entry `e` with truthy identifier
`vid` at index `i` (lines 67-77). -/
def mkEnhanced (i : Nat) (vid : String) (e : RawEntry) : EnhancedEntry :=
  { id := vid
    videoId := vid
    title := e.title.getD ("Video " ++ toString (i + 1))
    duration := e.duration
    uploader := e.uploader.getD "Unknown"
    url := "https://www.youtube.com/watch?v=" ++ vid
    webpageUrl := "https://www.youtube.com/watch?v=" ++ vid
    typeTag := "url"
    ieKey := "Youtube" }

/-- State threaded through the playlist normalization loop. -/
structure PLSt where
  k : Nat
  loaded : Nat
  events : List PLEvent
  valids : List EnhancedEntry
  stopped : Bool
deriving DecidableEq, Repr

/-- The per-entry loop of `PlaylistInfoThread.run` (lines 61-85): skip
`null` entries and entries without a truthy id; for each kept entry append
the enhanced entry, bump `loaded_count` and emit one progress event; a
true cancellation read returns immediately (`stopped`). -/
def plLoop (can : Nat → Bool) (total : Nat) : List (Option RawEntry) → Nat → PLSt → PLSt
  | [], _, st => st
  | e? :: rest, i, st =>
    if can st.k then { st with k := st.k + 1, stopped := true }
    else
      let st := { st with k := st.k + 1 }
      match e? with
      | none => plLoop can total rest (i + 1) st
      | some e =>
        match truthy e.id with
        | none => plLoop can total rest (i + 1) st
        | some vid =>
          let loaded := st.loaded + 1
          let titl := e.title.getD ("Video " ++ toString (i + 1))
          plLoop can total rest (i + 1)
            { st with
              loaded := loaded
              valids := st.valids ++ [mkEnhanced i vid e]
              events := st.events ++ [PLEvent.progress total loaded titl] }

/-- Result of the flat `extract_info` call of the loader: an exception, a
playlist (`_type` equal to `playlist` with an `entries` key), or anything else
(handled by the single-video branch). -/
inductive PLExtract
  | raises (msg : String)
  | okPlaylist (entries : List (Option RawEntry))
  | okOther (title : Option String)

/-- The normalized entry list produced by an uncancelled run over the given
raw entries: the `valid_entries` accumulated by the loop. -/
def normalizeEntries (entries : List (Option RawEntry)) : List EnhancedEntry :=
  (plLoop (fun _ => false) entries.length entries 0
    { k := 2, loaded := 0, events := [], valids := [], stopped := false }).valids

/-- `PlaylistInfoThread.run` (lines 27-105) as an event trace.  Cancellation
reads happen at lines 43, 50 (or 104 on an extraction error), then once per
entry, then at line 90 (or 95), in that order; read `j` returns `can j`. -/
def playlistRun (can : Nat → Bool) (ext : PLExtract) : List PLEvent :=
  if can 0 then []
  else
    let ev0 := [PLEvent.progress 0 0 "Discovering playlist..."]
    match ext with
    | .raises msg =>
      if can 1 then ev0
      else ev0 ++ [PLEvent.loadingFailed ("Error loading playlist: " ++ msg)]
    | .okPlaylist entries =>
      if can 1 then ev0
      else
        let total := entries.length
        let st := plLoop can total entries 0
          { k := 2, loaded := 0, events := [], valids := [], stopped := false }
        if st.stopped then ev0 ++ st.events
        else if can st.k then ev0 ++ st.events
        else ev0 ++ st.events ++
          [PLEvent.progress total st.loaded "Finalizing...", PLEvent.infoLoaded st.valids]
    | .okOther title =>
      if can 1 then ev0
      else if can 2 then ev0
      else ev0 ++ [PLEvent.infoLoadedSingle (title.getD "Single Video")]

/-- The order-preserving selection the loop performs on raw entries:
non-null entries with a truthy identifier, enhanced, keeping list order. -/
def selectValid : List (Option RawEntry) → Nat → List EnhancedEntry
  | [], _ => []
  | none :: rest, i => selectValid rest (i + 1)
  | some e :: rest, i =>
    match truthy e.id with
    | none => selectValid rest (i + 1)
    | some vid => mkEnhanced i vid e :: selectValid rest (i + 1)

/-! ### JobRunner — `DownloadThread.run` (src/core/download_thread.py)

The retry settings are the constants fixed in `__init__` (lines 40-43). -/

/-- `self.max_retries` (line 41). -/
def maxRetries : Nat := 3

/-- `self.retry_delay`, in seconds (line 42). -/
def retryDelay : Nat := 5

/-- A playlist entry as consumed by `DownloadThread.run` (produced by the
loader or passed by the UI); the keys read at lines 115 and 139. -/
structure PEntry where
  url : Option String
  webpageUrl : Option String
  id : Option String
  videoId : Option String
deriving DecidableEq, Repr

/-- The immutable download request held by the thread (`__init__`,
lines 28-38). -/
structure Request where
  url : String
  outputPath : String
  isAudioOnly : Bool
  quality : String
  noPlaylist : Bool
  playlistEntries : List PEntry

/-- The yt-dlp options dictionary assembled at lines 66-101 (plus the
`no_part` / `continue_dl` keys the dead branch at lines 61-63 would add;
absent keys are modelled by their yt-dlp defaults `false` / `true`). -/
structure YdlOpts where
  outtmpl : String
  noplaylist : Bool
  quiet : Bool
  noWarnings : Bool
  retries : Nat
  fragmentRetries : Nat
  extractorRetries : Nat
  fileAccessRetries : Nat
  socketTimeout : Nat
  format : String
  audioPostprocess : Bool
  ffmpegLocation : Option String
  noPart : Bool
  continueDl : Bool
deriving DecidableEq, Repr

/-- Builds the fresh options dictionary of lines 66-101 from the request;
`ff` is the bundled ffmpeg path when it exists on disk (line 99-101). -/
def buildYdlOpts (req : Request) (ff : Option String) : YdlOpts :=
  let fmt :=
    if req.isAudioOnly then "bestaudio/best"
    else if req.quality = "Best" then "bestvideo+bestaudio/best"
    else if req.quality = "1080p" then
      "best[height<=1080][vcodec*=vp9]/best[height<=1080][ext=mp4]/best[height<=1080]/best"
    else if req.quality = "720p" then
      "best[height<=720][vcodec*=vp9]/best[height<=720][ext=mp4]/best[height<=720]/best"
    else if req.quality = "480p" then
      "best[height<=480][vcodec*=vp9]/best[height<=480][ext=mp4]/best[height<=480]/best"
    else "best"
  { outtmpl := req.outputPath ++ "/%(title)s.%(ext)s"
    noplaylist := req.noPlaylist
    quiet := true
    noWarnings := true
    retries := 3
    fragmentRetries := 3
    extractorRetries := 3
    fileAccessRetries := 3
    socketTimeout := 30
    format := fmt
    audioPostprocess := req.isAudioOnly
    ffmpegLocation := ff
    noPart := false
    continueDl := true }

/-- The options value in scope at the engine calls of a given attempt:
models the guarded mutation at lines 61-63 (which would raise `NameError`
were `ydl_opts` not yet assigned, and whose effect is otherwise discarded
by the unconditional rebuild at line 66) followed by that rebuild. -/
def ydlOptsAt (req : Request) (ff : Option String) (attempt : Nat)
    (prev : Option YdlOpts) : Except String YdlOpts :=
  if attempt > 3 then
    match prev with
    | none => Except.error "NameError: ydl_opts referenced before assignment"
    | some _ => Except.ok (buildYdlOpts req ff)
  else Except.ok (buildYdlOpts req ff)

/-- `individual_opts` for a playlist entry (lines 119-131): copy of the
base options with `noplaylist` forced and, for video downloads, the quality
format re-asserted with the simpler per-entry expressions. -/
def individualOpts (base : YdlOpts) (req : Request) : YdlOpts :=
  let b := { base with noplaylist := true }
  if req.isAudioOnly then b
  else if req.quality = "Best" then { b with format := "bestvideo+bestaudio/best" }
  else if req.quality = "1080p" then { b with format := "best[height<=1080]/best" }
  else if req.quality = "720p" then { b with format := "best[height<=720]/best" }
  else if req.quality = "480p" then { b with format := "best[height<=480]/best" }
  else b

/-- `individual_opts` rebuilt for the id-based fallback (lines 143-144):
only `noplaylist` is forced. -/
def fallbackOpts (base : YdlOpts) : YdlOpts :=
  { base with noplaylist := true }

/-- An event emitted by the thread on one of its four signals. -/
inductive Event
  | progress (percent : Nat) (speed : Fmt) (size : Option Fmt) (eta : Option EtaFmt)
  | completed (filename : String) (filepath : String)
  | failed (msg : String)
  | retryStatus (attempt : Nat) (maxR : Nat) (msg : String)
  | cleanup
deriving DecidableEq, Repr

/-- A progress-hook callback delivered by the engine during a download
(`progress_hook`, lines 248-271).  `dt` is the model time elapsed since the
previous point of the run. -/
inductive Hook
  | downloading (downloaded total speed eta dt : Nat)
  | finished (filename : String) (dt : Nat)
deriving DecidableEq, Repr

/-- Mutable state of the run: the millisecond clock, `downloaded_files`,
the emitted trace, and a count of engine invocations (metadata or download
calls) used to measure attempts. -/
structure St where
  time : Nat
  files : List String
  trace : List Event
  calls : Nat
deriving DecidableEq, Repr

/-- Appends one emitted event. -/
def emit (st : St) (e : Event) : St :=
  { st with trace := st.trace ++ [e] }

/-- Advances the clock by `d` milliseconds. -/
def tick (st : St) (d : Nat) : St :=
  { st with time := st.time + d }

/-- Reading `self.is_cancelled` at model time `t` when the flag was set at
instant `c` (or never, `none`). -/
def isCan (c : Option Nat) (t : Nat) : Bool :=
  match c with
  | none => false
  | some cv => cv ≤ t

/-- One progress-hook callback (lines 248-271): a `downloading` callback
emits a progress event unless the flag is set; a `finished` callback
records the file path when truthy and not already recorded. -/
def processHook (c : Option Nat) (st : St) : Hook → St
  | .downloading dl tot sp et dt =>
    let st := tick st dt
    if isCan c st.time then st
    else
      emit st (Event.progress (if tot > 0 then dl * 100 / tot else 0)
        (format_speed sp)
        (if tot > 0 then some (format_file_size tot) else none)
        (if et > 0 then some (format_eta et) else none))
  | .finished name dt =>
    let st := tick st dt
    if name ≠ "" ∧ name ∉ st.files then { st with files := st.files ++ [name] }
    else st

/-- All hook callbacks of one engine download call, in order. -/
def processHooks (c : Option Nat) : List Hook → St → St
  | [], st => st
  | h :: hs, st => processHooks c hs (processHook c st h)

/-- Result of the metadata call `ydl.extract_info(url, download=False)`
(line 157): raises, or returns an info dict whose `title` key we keep.
`d` is the model duration of the call. -/
inductive ExtractR
  | raises (msg : String) (d : Nat)
  | ok (title : Option String) (d : Nat)

/-- Result of an engine download call: raises after delivering some hook
callbacks, or succeeds having delivered them.  `d` is the model time from
the last hook to the return of the call. -/
inductive DownloadR
  | raises (hooks : List Hook) (msg : String) (d : Nat)
  | ok (hooks : List Hook) (d : Nat)

/-- The black-box extraction engine: behaviour of the metadata call and the
download call per attempt index, and of the per-entry and per-entry
fallback downloads per entry index. -/
structure Oracle where
  extract : Nat → YdlOpts → ExtractR
  download : Nat → YdlOpts → DownloadR
  entryDl : Nat → YdlOpts → DownloadR
  entryFallback : Nat → YdlOpts → DownloadR

/-- How `run` returned: normally, because a cancellation read returned
true at a checkpoint, or (hypothetically) by an uncaught `NameError` from
the dead branch at lines 61-63. -/
inductive Outcome
  | finished
  | cancelled
  | crashed (msg : String)
deriving DecidableEq, Repr

/-- The backoff sleep of lines 180-183: up to `n` rounds of "read the flag,
return if set, sleep one second"; returns the state and whether a read
observed cancellation. -/
def backoffSleep (c : Option Nat) : Nat → St → St × Bool
  | 0, st => (st, false)
  | n + 1, st =>
    if isCan c st.time then (st, true)
    else backoffSleep c n (tick st 1000)

/-- The message of the inconsistency branch at line 164. -/
def noFilesMsg : String :=
  "Download completed but no files were found. This may indicate a download failure or file access issue."

/-- The final-failure message of line 188 for the given 0-based attempt. -/
def finalFailMsg (attempt : Nat) (msg : String) : String :=
  "Download failed after " ++ toString (attempt + 1) ++ " attempts. Last error: " ++ msg

/-- The `except` handler of lines 168-190 for a single-item attempt:
on a retryable error with attempts remaining, the optional 416 cleanup, the
retry announcement on `retry_status`, and the interruptible backoff sleep
(`Sum.inl` = fall through to the next attempt, `Sum.inr` = `run` returns);
otherwise the guarded final Failed emission. -/
def handleErr (c : Option Nat) (att : Nat) (msg : String) (st : St) :
    St ⊕ (St × Outcome) :=
  if is_retryable_error msg && decide (att < maxRetries) then
    let st4 := if needsRangeCleanup msg then emit st Event.cleanup else st
    let st5 := emit st4 (Event.retryStatus (att + 1) (maxRetries + 1) ("Failed: " ++ msg))
    match backoffSleep c retryDelay st5 with
    | (st6, true) => Sum.inr (st6, Outcome.cancelled)
    | (st6, false) => Sum.inl st6
  else
    if isCan c st.time then Sum.inr (st, Outcome.cancelled)
    else Sum.inr (emit st (Event.failed (finalFailMsg att msg)), Outcome.finished)

/-- The playlist-entry loop of lines 111-148: per entry, a cancellation
read (`break` when set), resolution of the truthy video URL, the download
call, and on a raised error the Failed-entry emission followed by the
optional id-based fallback with its own Failed emission on error. -/
def runEntriesLoop (orc : Oracle) (c : Option Nat) (req : Request) (base : YdlOpts) :
    List PEntry → Nat → St → St
  | [], _, st => st
  | e :: rest, i, st =>
    if isCan c st.time then st
    else
      match truthyOr e.url e.webpageUrl with
      | none => runEntriesLoop orc c req base rest (i + 1) st
      | some u =>
        let iopts := individualOpts base req
        match orc.entryDl i iopts with
        | DownloadR.ok hooks d =>
          runEntriesLoop orc c req base rest (i + 1)
            (tick (processHooks c hooks { st with calls := st.calls + 1 }) d)
        | DownloadR.raises hooks msg d =>
          let st1 := emit (tick (processHooks c hooks { st with calls := st.calls + 1 }) d)
            (Event.failed ("Failed to download " ++ u ++ ": " ++ msg))
          match truthyOr e.id e.videoId with
          | none => runEntriesLoop orc c req base rest (i + 1) st1
          | some _vid =>
            match orc.entryFallback i (fallbackOpts base) with
            | DownloadR.ok hooks2 d2 =>
              runEntriesLoop orc c req base rest (i + 1)
                (tick (processHooks c hooks2 { st1 with calls := st1.calls + 1 }) d2)
            | DownloadR.raises hooks2 msg2 d2 =>
              runEntriesLoop orc c req base rest (i + 1)
                (emit (tick (processHooks c hooks2 { st1 with calls := st1.calls + 1 }) d2)
                  (Event.failed ("Fallback download also failed: " ++ msg2)))

/-- The playlist branch of the try body (lines 110-153 and the `return` at
line 166): run the entry loop, then emit the aggregate Completed event when
the flag is unset and at least one file was recorded. -/
def runPlaylistBody (orc : Oracle) (c : Option Nat) (req : Request) (opts : YdlOpts)
    (st : St) : St × Outcome :=
  let st1 := runEntriesLoop orc c req opts req.playlistEntries 0 st
  if !isCan c st1.time && !st1.files.isEmpty then
    (emit st1 (Event.completed (toString req.playlistEntries.length ++ " videos from playlist")
      (st1.files.headD "")), Outcome.finished)
  else (st1, if isCan c st1.time then Outcome.cancelled else Outcome.finished)

/-- The attempt loop of `DownloadThread.run` (lines 52-190).  `fuel` is the
number of loop iterations remaining (`maxRetries + 1` at entry), `att` the
0-based attempt index, `prev` the options value left by the previous
iteration (for the guarded read at lines 61-63). -/
def runGo (req : Request) (ff : Option String) (orc : Oracle) (c : Option Nat) :
    Nat → Nat → Option YdlOpts → St → St × Outcome
  | 0, _, _, st => (st, Outcome.finished)
  | fuel + 1, att, prev, st =>
    if isCan c st.time then (st, Outcome.cancelled)
    else
      let st1 := if att > 0 then
        emit st (Event.retryStatus (att + 1) maxRetries "Retrying download...") else st
      match ydlOptsAt req ff att prev with
      | Except.error e => (st1, Outcome.crashed e)
      | Except.ok opts =>
        if isCan c st1.time then (st1, Outcome.cancelled)
        else if req.playlistEntries.isEmpty then
          let st2 := { st1 with calls := st1.calls + 1 }
          match orc.extract att opts with
          | ExtractR.raises msg d =>
            match handleErr c att msg (tick st2 d) with
            | Sum.inl st6 => runGo req ff orc c fuel (att + 1) (some opts) st6
            | Sum.inr r => r
          | ExtractR.ok title d =>
            let st3 := tick st2 d
            if isCan c st3.time then (st3, Outcome.cancelled)
            else
              let st4 := { st3 with calls := st3.calls + 1 }
              match orc.download att opts with
              | DownloadR.raises hooks msg d2 =>
                match handleErr c att msg (tick (processHooks c hooks st4) d2) with
                | Sum.inl st8 => runGo req ff orc c fuel (att + 1) (some opts) st8
                | Sum.inr r => r
              | DownloadR.ok hooks d2 =>
                let st5 := tick (processHooks c hooks st4) d2
                let filename := title.getD "Unknown"
                if !isCan c st5.time && !st5.files.isEmpty then
                  (emit st5 (Event.completed filename (st5.files.headD "")), Outcome.finished)
                else (emit st5 (Event.failed noFilesMsg), Outcome.finished)
        else
          runPlaylistBody orc c req opts st1

/-- `DownloadThread.run`: the attempt loop started on a fresh thread state
(clock 0, no recorded files, empty trace). -/
def runDT (req : Request) (ff : Option String) (orc : Oracle) (c : Option Nat) :
    St × Outcome :=
  runGo req ff orc c (maxRetries + 1) 0 none
    { time := 0, files := [], trace := [], calls := 0 }

/-! ### Statement-level predicates and decompositions -/

/-- Terminal events in the sense of the spec: `Completed` or `Failed`. -/
def isTerminalEv : Event → Bool
  | .completed _ _ => true
  | .failed _ => true
  | _ => false

/-- A progress event. -/
def isProgressEv : Event → Bool
  | .progress _ _ _ _ => true
  | _ => false

/-- Any emission on the `retry_status` signal. -/
def isRetrySt : Event → Bool
  | .retryStatus _ _ _ => true
  | _ => false

/-- The retry announcement emitted by the error handler (line 177), which
carries `max_retries + 1` as its second argument. -/
def isRetryAnnounce : Event → Bool
  | .retryStatus _ m _ => m == maxRetries + 1
  | _ => false

/-- The "Retrying download..." notice emitted at the start of a retry
attempt (line 59), which carries `max_retries` as its second argument. -/
def isRetryNotice : Event → Bool
  | .retryStatus _ m _ => m == maxRetries
  | _ => false

/-- A trace that ends in a terminal event and contains no other terminal
event. -/
def OneTermLast (l : List Event) : Prop :=
  ∃ pre e, l = pre ++ [e] ∧ isTerminalEv e = true ∧
    pre.all (fun x => !isTerminalEv x) = true

/-- The cleanup marker the error handler records before a 416-triggered
retry. -/
def cleanupPart (msg : String) : List Event :=
  if needsRangeCleanup msg then [Event.cleanup] else []

/-- The progress events the hook callbacks of one download call emit when the
cancellation flag is never set, in order. -/
def hookProgress : List Hook → List Event
  | [] => []
  | Hook.downloading dl tot sp et _ :: hs =>
    Event.progress (if tot > 0 then dl * 100 / tot else 0) (format_speed sp)
      (if tot > 0 then some (format_file_size tot) else none)
      (if et > 0 then some (format_eta et) else none) :: hookProgress hs
  | Hook.finished _ _ :: hs => hookProgress hs

/-- The `downloaded_files` list after the hook callbacks of one download call,
starting from `fs`. -/
def hookFiles : List Hook → List String → List String
  | [], fs => fs
  | Hook.downloading _ _ _ _ _ :: hs, fs => hookFiles hs fs
  | Hook.finished name _ :: hs, fs =>
    hookFiles hs (if name ≠ "" ∧ name ∉ fs then fs ++ [name] else fs)

/-- Total model duration of a hook callback list. -/
def hookDur : List Hook → Nat
  | [] => 0
  | Hook.downloading _ _ _ _ dt :: hs => dt + hookDur hs
  | Hook.finished _ dt :: hs => dt + hookDur hs

/-- The events the hook callbacks of one download call emit under an
arbitrary cancellation schedule, when the callbacks start at model time
`t`: a downloading callback at a time at which the flag reads true emits
nothing, any other emits its progress event. -/
def hookEventsAt (c : Option Nat) : List Hook → Nat → List Event
  | [], _ => []
  | Hook.downloading dl tot sp et dt :: hs, t =>
    (if isCan c (t + dt) then [] else
      [Event.progress (if tot > 0 then dl * 100 / tot else 0) (format_speed sp)
        (if tot > 0 then some (format_file_size tot) else none)
        (if et > 0 then some (format_eta et) else none)]) ++
    hookEventsAt c hs (t + dt)
  | Hook.finished _ dt :: hs, t => hookEventsAt c hs (t + dt)

/-- The `loaded` component of a playlist-discovery progress event. -/
def plLoaded : PLEvent → Option Nat
  | .progress _ l _ => some l
  | _ => none

/-- The full event trace of a single-item run whose every attempt raises
(message `m k` on attempt `k`), starting from attempt `att` with `fuel`
iterations left: the optional "Retrying download..." notice, then per
retried attempt the optional cleanup marker and the retry announcement,
and on the last attempt the final Failed event. -/
def failTraceAux (m : Nat → String) : Nat → Nat → List Event
  | 0, _ => []
  | fuel + 1, att =>
    (if att > 0 then [Event.retryStatus (att + 1) maxRetries "Retrying download..."] else []) ++
    (if att < maxRetries then
      cleanupPart (m att) ++
        [Event.retryStatus (att + 1) (maxRetries + 1) ("Failed: " ++ m att)] ++
        failTraceAux m fuel (att + 1)
     else [Event.failed (finalFailMsg att (m att))])

/-! ### Concrete fixtures for counterexamples and witnesses -/

/-- A two-entry playlist request: the download of the first entry fails (it has
no id for the fallback), second entry succeeds. -/
def cexPlaylistReq : Request :=
  { url := "https://playlist"
    outputPath := "out"
    isAudioOnly := false
    quality := "720p"
    noPlaylist := false
    playlistEntries :=
      [ { url := some "uA", webpageUrl := none, id := none, videoId := none }
      , { url := some "uB", webpageUrl := none, id := none, videoId := none } ] }

/-- Engine behaviour for `cexPlaylistReq`: entry 0 raises, entry 1 succeeds
delivering one finished file. -/
def cexPlaylistOrc : Oracle :=
  { extract := fun _ _ => ExtractR.ok none 0
    download := fun _ _ => DownloadR.ok [] 0
    entryDl := fun i _ =>
      if i = 0 then DownloadR.raises [] "boom" 0
      else DownloadR.ok [Hook.finished "f.mp4" 0] 0
    entryFallback := fun _ _ => DownloadR.ok [] 0 }

/-- Five raw playlist entries with the third one null (a removed video), as
in the discovery example of the spec. -/
def cex5 : List (Option RawEntry) :=
  [ some { id := some "id1", title := some "T1", duration := none, uploader := none }
  , some { id := some "id2", title := none, duration := none, uploader := some "U2" }
  , none
  , some { id := some "id4", title := some "T4", duration := some 10, uploader := none }
  , some { id := some "id5", title := none, duration := none, uploader := none } ]

/-- A single-item request used by witnesses. -/
def wReq : Request :=
  { url := "https://v"
    outputPath := "out"
    isAudioOnly := false
    quality := "720p"
    noPlaylist := true
    playlistEntries := [] }

/-- An engine that always raises a retryable timeout instantly. -/
def wTimeoutOrc : Oracle :=
  { extract := fun _ _ => ExtractR.raises "timeout" 0
    download := fun _ _ => DownloadR.ok [] 0
    entryDl := fun _ _ => DownloadR.ok [] 0
    entryFallback := fun _ _ => DownloadR.ok [] 0 }

/-- An engine whose first attempt succeeds without recording any file. -/
def wNoFilesOrc : Oracle :=
  { extract := fun _ _ => ExtractR.ok (some "T") 0
    download := fun _ _ => DownloadR.ok [] 0
    entryDl := fun _ _ => DownloadR.ok [] 0
    entryFallback := fun _ _ => DownloadR.ok [] 0 }

/-- An engine whose first attempt resolves metadata instantly and whose
download takes 100 ms, recording one file: used to exhibit a run cancelled
mid-download, whose post-download flag read (line 161) observes the
cancellation and is still followed by a terminal Failed emission. -/
def cexMidCancelOrc : Oracle :=
  { extract := fun _ _ => ExtractR.ok (some "T") 0
    download := fun _ _ => DownloadR.ok [Hook.finished "v.mp4" 0] 100
    entryDl := fun _ _ => DownloadR.ok [] 0
    entryFallback := fun _ _ => DownloadR.ok [] 0 }

end DS

namespace DS

/-! ### Substring bridge lemmas -/

/-- `leadsWith` decides the starts-with relation on character lists. -/
theorem leadsWith_iff (n : List Char) : ∀ h, leadsWith n h = true ↔ ∃ t, h = n ++ t := by
  induction n with
  | nil => intro h; simp [leadsWith]
  | cons a as ih =>
    intro h
    cases h with
    | nil => simp [leadsWith]
    | cons b bs =>
      simp only [leadsWith, Bool.and_eq_true, beq_iff_eq, ih bs, List.cons_append,
        List.cons_eq_cons]
      constructor
      · rintro ⟨rfl, t, rfl⟩; exact ⟨t, rfl, rfl⟩
      · rintro ⟨t, rfl, rfl⟩; exact ⟨rfl, t, rfl⟩

/-- `containsSub` decides the substring relation. -/
theorem containsSub_iff (n : List Char) : ∀ h, containsSub n h = true ↔ ∃ p q, h = p ++ n ++ q := by
  intro h
  induction h with
  | nil =>
    simp only [containsSub, leadsWith_iff]
    constructor
    · rintro ⟨t, ht⟩
      rcases List.append_eq_nil.mp ht.symm with ⟨h1, h2⟩
      exact ⟨[], [], by simp [h1, h2]⟩
    · rintro ⟨p, q, hpq⟩
      rcases List.append_eq_nil.mp (List.append_eq_nil.mp hpq.symm).1 with ⟨-, h2⟩
      exact ⟨[], by simp [h2]⟩
  | cons c rest ih =>
    simp only [containsSub, Bool.or_eq_true, leadsWith_iff, ih]
    constructor
    · rintro (⟨t, ht⟩ | ⟨p, q, hpq⟩)
      · exact ⟨[], t, by simp [ht]⟩
      · exact ⟨c :: p, q, by simp [hpq]⟩
    · rintro ⟨p, q, hpq⟩
      cases p with
      | nil => exact Or.inl ⟨q, by simpa using hpq⟩
      | cons c' p' =>
        simp only [List.cons_append, List.cons_eq_cons] at hpq
        exact Or.inr ⟨p', q, hpq.2⟩

/-- C3: `is_retryable_error` returns true iff the lower-cased message
contains one of the ten fixed vocabulary substrings; in particular it is
true for "HTTP Error 503: Service Unavailable" and false for
"Video unavailable".  It is a plain function of the message (pure). -/
theorem is_retryable_error_spec :
    (∀ msg : String, is_retryable_error msg = true ↔
      ∃ e ∈ retryableErrors, ∃ p q, (lowerStr msg).toList = p ++ e.toList ++ q) ∧
    is_retryable_error "HTTP Error 503: Service Unavailable" = true ∧
    is_retryable_error "Video unavailable" = false := by
  refine ⟨fun msg => ?_, by decide, by decide⟩
  simp only [is_retryable_error, List.any_eq_true, containsSub_iff]

/-- The rounded tenths value is a nearest rounding of `10 * b / D`: scaled
by `2 * D`, it lies within `D` of `2 * (10 * b)`. -/
theorem fmtTenths_near (b D : Nat) (hD : 0 < D) :
    2 * D * fmtTenths b D ≤ 2 * (10 * b) + D ∧
    2 * (10 * b) ≤ 2 * D * fmtTenths b D + D := by
  obtain ⟨q, r, hqr, hrD, hfm⟩ : ∃ q r, 10 * b = D * q + r ∧ r < D ∧
      fmtTenths b D = (if 2 * r < D then q else if D < 2 * r then q + 1
        else if q % 2 = 0 then q else q + 1) :=
    ⟨10 * b / D, 10 * b % D, (Nat.div_add_mod _ _).symm, Nat.mod_lt _ hD, rfl⟩
  obtain ⟨A, hA⟩ : ∃ A, A = D * q := ⟨_, rfl⟩
  have hqr2 : 10 * b = A + r := by rw [hA]; exact hqr
  have key : 2 * D * q = 2 * A := by rw [hA]; ring
  have key2 : 2 * D * (q + 1) = 2 * A + 2 * D := by rw [hA]; ring
  rw [hfm]
  split_ifs with h1 h2 h3
  · rw [key]; omega
  · rw [key2]; omega
  · rw [key]; omega
  · rw [key2]; omega

/-- C7 counterexample: the one-decimal rounding the `:.1f` f-string applies
makes `format_file_size 1048525` display "1024.0 KB" (1048525 / 1024 is
1023.95..., which rounds up to 1024.0): the displayed value reaches 1024
in the non-top KB bracket, so the strict bound fails for the rendered
value. -/
theorem format_rounding_reaches_1024_cex :
    fmtUnit (format_file_size 1048525) = "KB" ∧
    size_display_tenths 1048525 = 10240 ∧
    ¬ size_display_tenths 1048525 < 10240 := by
  refine ⟨rfl, by decide, by decide⟩

/-- C7 (amended): `format_speed` and `format_file_size` pick the base-1024
bracket so the exact scaled value stays below 1024 except in the top
bracket (MB/s for speed, GB for size); the rendered one-decimal value is a
nearest rounding of it and therefore never exceeds 1024.0 (it attains
exactly 1024.0 in the last half-tenth of a bracket); the byte bracket
prints no decimals and every bracket above it exactly one decimal place. -/
theorem format_bracket_rounded_spec (b : Nat) :
    (fmtUnit (format_speed b) ≠ "MB/s" → fmtVal (format_speed b) < 1024) ∧
    fmtDecimals (format_speed b) = (if fmtUnit (format_speed b) = "B/s" then 0 else 1) ∧
    (fmtUnit (format_file_size b) ≠ "GB" → fmtVal (format_file_size b) < 1024) ∧
    fmtDecimals (format_file_size b) = (if fmtUnit (format_file_size b) = "B" then 0 else 1) ∧
    (fmtUnit (format_speed b) ≠ "MB/s" → speed_display_tenths b ≤ 10240) ∧
    (fmtUnit (format_file_size b) ≠ "GB" → size_display_tenths b ≤ 10240) ∧
    (∀ D : Nat, 0 < D → 2 * D * fmtTenths b D ≤ 2 * (10 * b) + D ∧
      2 * (10 * b) ≤ 2 * D * fmtTenths b D + D) := by
  have hK : ∀ x : Nat, x < 1024 * 1024 → (x : ℚ) / 1024 < 1024 := by
    intro x hx
    rw [div_lt_iff₀ (by norm_num)]
    have hx' : (x : ℚ) < 1024 * 1024 := by exact_mod_cast hx
    linarith
  have hM : ∀ x : Nat, x < 1024 * 1024 * 1024 → (x : ℚ) / (1024 * 1024) < 1024 := by
    intro x hx
    rw [div_lt_iff₀ (by norm_num)]
    have hx' : (x : ℚ) < 1024 * 1024 * 1024 := by exact_mod_cast hx
    linarith
  refine ⟨?_, ?_, ?_, ?_, ?_, ?_, fun D hD => fmtTenths_near b D hD⟩
  · intro hu
    by_cases h1 : b < 1024
    · simp only [format_speed, if_pos h1, fmtVal]
      exact_mod_cast h1
    · by_cases h2 : b < 1024 * 1024
      · simp only [format_speed, if_neg h1, if_pos h2, fmtVal]
        exact hK b h2
      · simp [format_speed, if_neg h1, if_neg h2, fmtUnit] at hu
  · by_cases h1 : b < 1024
    · simp [format_speed, h1, fmtDecimals, fmtUnit]
    · by_cases h2 : b < 1024 * 1024 <;>
        simp [format_speed, h1, h2, fmtDecimals, fmtUnit]
  · intro hu
    by_cases h1 : b < 1024
    · simp only [format_file_size, if_pos h1, fmtVal]
      exact_mod_cast h1
    · by_cases h2 : b < 1024 * 1024
      · simp only [format_file_size, if_neg h1, if_pos h2, fmtVal]
        exact hK b h2
      · by_cases h3 : b < 1024 * 1024 * 1024
        · simp only [format_file_size, if_neg h1, if_neg h2, if_pos h3, fmtVal]
          exact hM b h3
        · simp [format_file_size, if_neg h1, if_neg h2, if_neg h3, fmtUnit] at hu
  · by_cases h1 : b < 1024
    · simp [format_file_size, h1, fmtDecimals, fmtUnit]
    · by_cases h2 : b < 1024 * 1024
      · simp [format_file_size, h1, h2, fmtDecimals, fmtUnit]
      · by_cases h3 : b < 1024 * 1024 * 1024 <;>
          simp [format_file_size, h1, h2, h3, fmtDecimals, fmtUnit]
  · intro hu
    unfold speed_display_tenths
    by_cases h1 : b < 1024
    · rw [if_pos h1]
      omega
    · by_cases h2 : b < 1024 * 1024
      · rw [if_neg h1, if_pos h2]
        have hn := fmtTenths_near b 1024 (by norm_num)
        omega
      · simp [format_speed, if_neg h1, if_neg h2, fmtUnit] at hu
  · intro hu
    unfold size_display_tenths
    by_cases h1 : b < 1024
    · rw [if_pos h1]
      omega
    · by_cases h2 : b < 1024 * 1024
      · rw [if_neg h1, if_pos h2]
        have hn := fmtTenths_near b 1024 (by norm_num)
        omega
      · by_cases h3 : b < 1024 * 1024 * 1024
        · rw [if_neg h1, if_neg h2, if_pos h3]
          have hn := fmtTenths_near b (1024 * 1024) (by norm_num)
          omega
        · simp [format_file_size, if_neg h1, if_neg h2, if_neg h3, fmtUnit] at hu

/-- Witness for `format_bracket_rounded_spec` at a concrete byte count in
the KB bracket. -/
theorem format_bracket_rounded_spec_witness :
    fmtVal (format_speed 2048) < 1024 ∧ speed_display_tenths 2048 ≤ 10240 ∧
    2 * 1024 * fmtTenths 2048 1024 ≤ 2 * (10 * 2048) + 1024 := by
  refine ⟨(format_bracket_rounded_spec 2048).1 (by decide), ?_, ?_⟩
  · exact (format_bracket_rounded_spec 2048).2.2.2.2.1 (by decide)
  · exact ((format_bracket_rounded_spec 2048).2.2.2.2.2.2 1024 (by norm_num)).1

end DS

namespace DS

/-- No non-empty sequence of history additions can leave more than 50
entries. -/
theorem foldl_history_le (es : List HistEntry) :
    ∀ start, es = [] ∨ (es.foldl add_download_history start).length ≤ 50 := by
  induction es with
  | nil => intro _; exact Or.inl rfl
  | cons e es ih =>
    intro start
    refine Or.inr ?_
    rcases ih (add_download_history start e) with h | h
    · subst h
      simpa [add_download_history] using List.length_take_le 50 (e :: start)
    · simpa using h

/-- C6: `add_download_history` inserts the new entry at the front, keeps at
most 50 entries (evicting exactly the suffix past position 49, i.e. the
oldest entries of the newest-first list), and any non-empty sequence of
additions leaves at most 50 entries regardless of the starting list. -/
theorem download_history_invariant (h : List HistEntry) (e : HistEntry)
    (start es : List HistEntry) (hne : es ≠ []) :
    add_download_history h e = e :: h.take 49 ∧
    (add_download_history h e).length ≤ 50 ∧
    (es.foldl add_download_history start).length ≤ 50 := by
  refine ⟨rfl, ?_, ?_⟩
  · simpa [add_download_history] using List.length_take_le 50 (e :: h)
  · rcases foldl_history_le es start with h' | h'
    · exact absurd h' hne
    · exact h'

/-- Witness for `download_history_invariant` on concrete lists. -/
theorem download_history_invariant_witness :
    add_download_history [] ⟨"u", "f", "t", true⟩ = [⟨"u", "f", "t", true⟩] ∧
    (([⟨"u", "f", "t", true⟩] : List HistEntry).foldl add_download_history []).length ≤ 50 := by
  have h := download_history_invariant [] ⟨"u", "f", "t", true⟩ [] [⟨"u", "f", "t", true⟩]
    (by decide)
  exact ⟨by rw [h.1]; rfl, h.2.2⟩

/-- C9 counterexample: starting from a recent list that already contains
the URL twice, `add_recent_url` leaves two copies, refuting "contains url
exactly once" for arbitrary prior lists. -/
theorem add_recent_url_dup_cex :
    add_recent_url ["a", "a"] "a" = ["a", "a"] ∧
    (add_recent_url ["a", "a"] "a").count "a" = 2 := by decide

/-- C9 (amended): when the prior list contains the URL at most once,
`add_recent_url` puts the URL at index 0, keeps exactly one copy, caps the
list at 10, and the remaining entries are a sublist (hence in their
previous relative order) of the prior list. -/
theorem add_recent_url_invariant (recent : List String) (url : String)
    (hcount : recent.count url ≤ 1) :
    (add_recent_url recent url).head? = some url ∧
    (add_recent_url recent url).count url = 1 ∧
    (add_recent_url recent url).length ≤ 10 ∧
    (add_recent_url recent url).tail.Sublist recent := by
  have hr0 : (if url ∈ recent then recent.erase url else recent).count url = 0 := by
    split_ifs with hm
    · have h1 := List.count_erase_self url recent
      have h2 : 0 < recent.count url := List.count_pos_iff.mpr hm
      omega
    · exact List.count_eq_zero_of_not_mem hm
  have hsub : (if url ∈ recent then recent.erase url else recent).Sublist recent := by
    split_ifs
    · exact List.erase_sublist _ _
    · exact List.Sublist.refl _
  have h1 : add_recent_url recent url =
      url :: (if url ∈ recent then recent.erase url else recent).take 9 := rfl
  refine ⟨by rw [h1]; rfl, ?_, ?_, ?_⟩
  · rw [h1, List.count_cons_self]
    have hle := (List.take_sublist 9
      (if url ∈ recent then recent.erase url else recent)).count_le url
    omega
  · rw [h1]
    have := List.length_take_le 9 (if url ∈ recent then recent.erase url else recent)
    simp only [List.length_cons]
    omega
  · rw [h1]
    exact (List.take_sublist _ _).trans hsub

/-- Witness for `add_recent_url_invariant` on a concrete list. -/
theorem add_recent_url_invariant_witness :
    (add_recent_url ["y"] "x").head? = some "x" ∧
    (add_recent_url ["y"] "x").count "x" = 1 ∧
    (add_recent_url ["y"] "x").length ≤ 10 ∧
    (add_recent_url ["y"] "x").tail.Sublist ["y"] :=
  add_recent_url_invariant ["y"] "x" (by decide)

end DS

namespace DS

/-- The uncancelled playlist loop accumulates exactly the order-preserving
selection of valid entries. -/
theorem plLoop_valids (total : Nat) :
    ∀ (entries : List (Option RawEntry)) (i : Nat) (st : PLSt),
      (plLoop (fun _ => false) total entries i st).valids = st.valids ++ selectValid entries i := by
  intro entries
  induction entries with
  | nil => intro i st; simp [plLoop, selectValid]
  | cons e? rest ih =>
    intro i st
    cases e? with
    | none => simp [plLoop, selectValid, ih]
    | some e =>
      cases htr : truthy e.id with
      | none => simp [plLoop, selectValid, htr, ih]
      | some vid => simp [plLoop, selectValid, htr, ih]

/-- C5: an uncancelled playlist discovery normalizes exactly the non-null
raw entries with a truthy identifier, in order; every enhanced entry gets
the canonical watch URL, the defaulted "Video {i+1}" title and the
defaulted "Unknown" uploader; and on 5 raw entries with entry 3 null the
loaded counts of the emitted Progress events are 0,1,2,3,4,4 (reaching 4,
never 5) with 4 normalized entries. -/
theorem playlist_normalization_spec :
    (∀ entries : List (Option RawEntry), normalizeEntries entries = selectValid entries 0) ∧
    (∀ (i : Nat) (vid : String) (e : RawEntry),
      (mkEnhanced i vid e).url = "https://www.youtube.com/watch?v=" ++ vid ∧
      (mkEnhanced i vid e).webpageUrl = "https://www.youtube.com/watch?v=" ++ vid ∧
      (mkEnhanced i vid e).title = e.title.getD ("Video " ++ toString (i + 1)) ∧
      (mkEnhanced i vid e).uploader = e.uploader.getD "Unknown") ∧
    (normalizeEntries cex5).length = 4 ∧
    (playlistRun (fun _ => false) (PLExtract.okPlaylist cex5)).filterMap plLoaded =
      [0, 1, 2, 3, 4, 4] := by
  refine ⟨?_, ?_, ?_, ?_⟩
  · intro entries
    rw [normalizeEntries, plLoop_valids]
    rfl
  · intro i vid e
    exact ⟨rfl, rfl, rfl, rfl⟩
  · decide
  · decide

end DS

namespace DS

/-! ### Run-model helper lemmas -/

/-- The cancellation flag never reads true when it is never set. -/
theorem isCan_none (t : Nat) : isCan none t = false := rfl

/-- With no cancellation, the backoff sleep completes all rounds, advancing
the clock only. -/
theorem backoffSleep_none : ∀ (n t : Nat) (f : List String) (tr : List Event) (cl : Nat),
    backoffSleep none n ⟨t, f, tr, cl⟩ = (⟨t + 1000 * n, f, tr, cl⟩, false) := by
  intro n
  induction n with
  | zero => intro t f tr cl; simp [backoffSleep]
  | succ n ih =>
    intro t f tr cl
    simp only [backoffSleep, isCan, Bool.false_eq_true, if_false, tick]
    rw [ih]
    simp only [Prod.mk.injEq, St.mk.injEq, and_true, true_and]
    omega

/-- For attempts 0-3 the guarded mutation of lines 61-63 is skipped and the
options are the freshly built dictionary of lines 66-101. -/
theorem ydlOptsAt_ok (req : Request) (ff : Option String) (a : Nat) (prev : Option YdlOpts)
    (ha : a ≤ 3) : ydlOptsAt req ff a prev = Except.ok (buildYdlOpts req ff) := by
  unfold ydlOptsAt
  rw [if_neg (by omega)]

/-- With no cancellation, the error handler with attempts remaining cleans
up (on a 416), announces the retry, sleeps the full 5 seconds, and falls
through to the next attempt. -/
theorem handleErr_none_inl (att : Nat) (msg : String) (st : St)
    (hb : (is_retryable_error msg && decide (att < maxRetries)) = true) :
    handleErr none att msg st =
      Sum.inl { st with
        time := st.time + 5000
        trace := st.trace ++ cleanupPart msg ++
          [Event.retryStatus (att + 1) (maxRetries + 1) ("Failed: " ++ msg)] } := by
  obtain ⟨t, f, tr, cl⟩ := st
  unfold handleErr cleanupPart
  rw [hb]
  cases hc : needsRangeCleanup msg <;>
    simp only [Bool.false_eq_true, if_false, if_true, emit, retryDelay] <;>
    rw [backoffSleep_none] <;>
    simp [List.append_assoc]

/-- With no cancellation and no attempts remaining (or a non-retryable
error), the handler emits the final Failed message and the run returns. -/
theorem handleErr_none_inr (att : Nat) (msg : String) (st : St)
    (hb : (is_retryable_error msg && decide (att < maxRetries)) = false) :
    handleErr none att msg st =
      Sum.inr (emit st (Event.failed (finalFailMsg att msg)), Outcome.finished) := by
  unfold handleErr
  rw [hb]
  simp [isCan]

/-- With no cancellation, the hooks of one download call emit exactly
`hookProgress`, record exactly `hookFiles`, and advance the clock by
`hookDur`. -/
theorem processHooks_none : ∀ (hooks : List Hook) (st : St),
    processHooks none hooks st =
      { st with
        time := st.time + hookDur hooks
        files := hookFiles hooks st.files
        trace := st.trace ++ hookProgress hooks } := by
  intro hooks
  induction hooks with
  | nil => intro st; simp [processHooks, hookDur, hookFiles, hookProgress]
  | cons h hs ih =>
    intro st
    obtain ⟨t, f, tr, cl⟩ := st
    cases h with
    | downloading dl tot sp et dt =>
      simp only [processHooks, processHook, tick, isCan, Bool.false_eq_true, if_false, emit,
        hookDur, hookFiles, hookProgress]
      rw [ih]
      simp only [St.mk.injEq, List.append_assoc, List.singleton_append, and_true, true_and]
      omega
    | finished name dt =>
      simp only [processHooks, processHook, tick, hookDur, hookFiles, hookProgress]
      by_cases hn : name ≠ "" ∧ name ∉ f
      · rw [if_pos hn, if_pos hn, ih]
        simp only [St.mk.injEq, and_true, true_and]
        omega
      · rw [if_neg hn, if_neg hn, ih]
        simp only [St.mk.injEq, and_true, true_and]
        omega

/-- Under any cancellation schedule, hook processing only appends
non-terminal (progress) events and never touches the call counter. -/
theorem processHooks_trace (c : Option Nat) : ∀ (hooks : List Hook) (st : St),
    ∃ l, (processHooks c hooks st).trace = st.trace ++ l ∧
      l.all (fun x => !isTerminalEv x) = true ∧
      (processHooks c hooks st).calls = st.calls := by
  intro hooks
  induction hooks with
  | nil => intro st; exact ⟨[], by simp [processHooks], rfl, rfl⟩
  | cons h hs ih =>
    intro st
    obtain ⟨l, hl, hall, hcalls⟩ := ih (processHook c st h)
    have hp : ∃ p, (processHook c st h).trace = st.trace ++ p ∧
        p.all (fun x => !isTerminalEv x) = true ∧
        (processHook c st h).calls = st.calls := by
      cases h with
      | downloading dl tot sp et dt =>
        by_cases hcn : isCan c (st.time + dt) = true
        · refine ⟨[], ?_, rfl, ?_⟩ <;> simp [processHook, tick, hcn]
        · refine ⟨[Event.progress (if tot > 0 then dl * 100 / tot else 0) (format_speed sp)
            (if tot > 0 then some (format_file_size tot) else none)
            (if et > 0 then some (format_eta et) else none)], ?_, rfl, ?_⟩ <;>
            simp [processHook, tick, emit, hcn]
      | finished name dt =>
        refine ⟨[], ?_, rfl, ?_⟩ <;>
          · simp only [processHook, tick]
            split <;> simp
    obtain ⟨p, hpt, hpall, hpcalls⟩ := hp
    refine ⟨p ++ l, ?_, ?_, ?_⟩
    · rw [processHooks, hl, hpt, List.append_assoc]
    · simp [List.all_append, hpall, hall]
    · rw [processHooks, hcalls, hpcalls]

/-- Prepending non-terminal events preserves the one-terminal-last shape. -/
theorem oneTermLast_concat (l l' : List Event) (h : l.all (fun x => !isTerminalEv x) = true)
    (h' : OneTermLast l') : OneTermLast (l ++ l') := by
  obtain ⟨pre, e, rfl, he, hall⟩ := h'
  exact ⟨l ++ pre, e, by simp [List.append_assoc], he, by simp_all [List.all_append]⟩

/-- A singleton terminal trace has the one-terminal-last shape. -/
theorem oneTermLast_single (e : Event) (he : isTerminalEv e = true) : OneTermLast [e] :=
  ⟨[], e, rfl, he, rfl⟩

end DS

namespace DS

/-- The cleanup marker is never a terminal event. -/
theorem cleanupPart_all (msg : String) :
    (cleanupPart msg).all (fun x => !isTerminalEv x) = true := by
  unfold cleanupPart
  split <;> simp [isTerminalEv]

/-- Hook progress events are never terminal events. -/
theorem hookProgress_all (hooks : List Hook) :
    (hookProgress hooks).all (fun x => !isTerminalEv x) = true := by
  induction hooks with
  | nil => rfl
  | cons h hs ih =>
    cases h with
    | downloading dl tot sp et dt =>
      simp only [hookProgress, List.all_cons, ih, Bool.and_true]
      rfl
    | finished name dt =>
      simpa only [hookProgress] using ih

/-- With no cancellation, every single-item run of the attempt loop from
any attempt index returns normally with exactly one terminal event, at the
end of the events it appends. -/
theorem runGo_none_term (req : Request) (ff : Option String) (orc : Oracle)
    (hpl : req.playlistEntries.isEmpty = true) :
    ∀ fuel att, att + fuel = maxRetries + 1 → att ≤ maxRetries →
      ∀ (prev : Option YdlOpts) (st : St),
      (runGo req ff orc none fuel att prev st).2 = Outcome.finished ∧
      ∃ l, (runGo req ff orc none fuel att prev st).1.trace = st.trace ++ l ∧ OneTermLast l := by
  intro fuel
  induction fuel with
  | zero =>
    intro att h1 h2 prev st
    exfalso
    simp [maxRetries] at h1 h2
    omega
  | succ fuel ih =>
    intro att h1 h2 prev st
    have hatt3 : att ≤ 3 := by simpa [maxRetries] using h2
    have hopts := ydlOptsAt_ok req ff att prev hatt3
    rw [runGo]
    simp only [hopts, hpl, isCan_none, Bool.false_eq_true, if_false, if_true]
    set p0 := (if att > 0 then
      [Event.retryStatus (att + 1) maxRetries "Retrying download..."] else []) with hp0def
    set st1 := (if att > 0 then
      emit st (Event.retryStatus (att + 1) maxRetries "Retrying download...") else st) with hst1def
    have hst1trace : st1.trace = st.trace ++ p0 := by
      rw [hst1def, hp0def]; split <;> simp [emit]
    have hp0all : p0.all (fun x => !isTerminalEv x) = true := by
      rw [hp0def]; split <;> simp [isTerminalEv]
    cases hex : orc.extract att (buildYdlOpts req ff) with
    | raises msg d =>
      simp only []
      cases hb : (is_retryable_error msg && decide (att < maxRetries)) with
      | true =>
        rw [handleErr_none_inl att msg _ hb]
        have hlt : att < 3 := by
          have := (Bool.and_eq_true _ _).mp hb
          simpa [maxRetries] using of_decide_eq_true this.2
        obtain ⟨hfin, l', hl', hterm⟩ :=
          ih (att + 1) (by omega) (by simp [maxRetries]; omega)
            (some (buildYdlOpts req ff))
            { tick { st1 with calls := st1.calls + 1 } d with
              time := (tick { st1 with calls := st1.calls + 1 } d).time + 5000
              trace := (tick { st1 with calls := st1.calls + 1 } d).trace ++ cleanupPart msg ++
                [Event.retryStatus (att + 1) (maxRetries + 1) ("Failed: " ++ msg)] }
        refine ⟨hfin, p0 ++ (cleanupPart msg ++
          ([Event.retryStatus (att + 1) (maxRetries + 1) ("Failed: " ++ msg)] ++ l')), ?_, ?_⟩
        · rw [hl']
          simp only [tick, emit]
          rw [hst1trace]
          simp [List.append_assoc]
        · refine oneTermLast_concat _ _ hp0all ?_
          refine oneTermLast_concat _ _ (cleanupPart_all msg) ?_
          refine oneTermLast_concat _ _ (by simp [isTerminalEv]) hterm
      | false =>
        rw [handleErr_none_inr att msg _ hb]
        refine ⟨rfl, p0 ++ [Event.failed (finalFailMsg att msg)], ?_, ?_⟩
        · simp only [emit, tick]
          rw [hst1trace]
          simp [List.append_assoc]
        · exact oneTermLast_concat _ _ hp0all
            (oneTermLast_single _ rfl)
    | ok title d =>
      simp only [isCan_none, Bool.false_eq_true, if_false]
      cases hdl : orc.download att (buildYdlOpts req ff) with
      | raises hooks msg d2 =>
        simp only [processHooks_none, tick, emit]
        cases hb : (is_retryable_error msg && decide (att < maxRetries)) with
        | true =>
          rw [handleErr_none_inl att msg _ hb]
          have hlt : att < 3 := by
            have := (Bool.and_eq_true _ _).mp hb
            simpa [maxRetries] using of_decide_eq_true this.2
          obtain ⟨hfin, l', hl', hterm⟩ :=
            ih (att + 1) (by omega) (by simp [maxRetries]; omega)
              (some (buildYdlOpts req ff)) _
          refine ⟨hfin, p0 ++ (hookProgress hooks ++ (cleanupPart msg ++
            ([Event.retryStatus (att + 1) (maxRetries + 1) ("Failed: " ++ msg)] ++ l'))), ?_, ?_⟩
          · rw [hl']
            simp only []
            rw [hst1trace]
            simp [List.append_assoc]
          · refine oneTermLast_concat _ _ hp0all ?_
            refine oneTermLast_concat _ _ (hookProgress_all hooks) ?_
            refine oneTermLast_concat _ _ (cleanupPart_all msg) ?_
            exact oneTermLast_concat _ _ (by simp [isTerminalEv]) hterm
        | false =>
          rw [handleErr_none_inr att msg _ hb]
          refine ⟨rfl, p0 ++ (hookProgress hooks ++ [Event.failed (finalFailMsg att msg)]), ?_, ?_⟩
          · simp only [emit]
            rw [hst1trace]
            simp [List.append_assoc]
          · exact oneTermLast_concat _ _ hp0all
              (oneTermLast_concat _ _ (hookProgress_all hooks) (oneTermLast_single _ rfl))
      | ok hooks d2 =>
        simp only [processHooks_none, tick, emit, isCan_none, Bool.not_false, Bool.true_and]
        split
        · refine ⟨rfl, p0 ++ (hookProgress hooks ++ [Event.completed (title.getD "Unknown")
            ((hookFiles hooks st1.files).headD "")]), ?_, ?_⟩
          · rw [hst1trace]
            simp [List.append_assoc]
          · exact oneTermLast_concat _ _ hp0all
              (oneTermLast_concat _ _ (hookProgress_all hooks) (oneTermLast_single _ rfl))
        · refine ⟨rfl, p0 ++ (hookProgress hooks ++ [Event.failed noFilesMsg]), ?_, ?_⟩
          · rw [hst1trace]
            simp [List.append_assoc]
          · exact oneTermLast_concat _ _ hp0all
              (oneTermLast_concat _ _ (hookProgress_all hooks) (oneTermLast_single _ rfl))

end DS

namespace DS

/-- Under an arbitrary cancellation schedule, the hooks of one download
call emit exactly `hookEventsAt`, record exactly `hookFiles`, and advance
the clock by `hookDur`. -/
theorem processHooks_eq (c : Option Nat) : ∀ (hooks : List Hook) (st : St),
    processHooks c hooks st =
      { st with
        time := st.time + hookDur hooks
        files := hookFiles hooks st.files
        trace := st.trace ++ hookEventsAt c hooks st.time } := by
  intro hooks
  induction hooks with
  | nil => intro st; simp [processHooks, hookDur, hookFiles, hookEventsAt]
  | cons h hs ih =>
    intro st
    obtain ⟨t, f, tr, cl⟩ := st
    cases h with
    | downloading dl tot sp et dt =>
      simp only [processHooks, processHook, tick, hookDur, hookFiles, hookEventsAt]
      by_cases hcn : isCan c (t + dt) = true
      · rw [if_pos hcn, if_pos hcn, ih]
        simp only [St.mk.injEq, List.nil_append, and_true, true_and]
        omega
      · rw [if_neg hcn, if_neg hcn, ih]
        simp only [emit, St.mk.injEq, List.append_assoc, List.singleton_append, and_true,
          true_and]
        omega
    | finished name dt =>
      simp only [processHooks, processHook, tick, hookDur, hookFiles, hookEventsAt]
      by_cases hn : name ≠ "" ∧ name ∉ f
      · rw [if_pos hn, if_pos hn, ih]
        simp only [St.mk.injEq, and_true, true_and]
        omega
      · rw [if_neg hn, if_neg hn, ih]
        simp only [St.mk.injEq, and_true, true_and]
        omega

/-- C2 (amended): a single-item run in which cancellation is never observed
emits exactly one terminal event (Completed or Failed), and it is the last
event of the run, which returns normally; a run whose cancellation flag is
already set at the first checkpoint emits no events at all.  The original
clause "once cancellation is observed no terminal event follows" had to be
weakened (see the counterexample): when both engine calls of an attempt
succeed and the flag becomes set after the pre-download check (line 158)
but by the post-download file check (line 161), that check observes the
cancellation and the run still emits one final terminal Failed — the
no-files message — before returning.  Playlist runs are excluded: they can
emit several terminal events. -/
theorem single_item_one_terminal (req : Request) (ff : Option String) (orc : Oracle)
    (hpl : req.playlistEntries.isEmpty = true) :
    OneTermLast (runDT req ff orc none).1.trace ∧
    (runDT req ff orc none).2 = Outcome.finished ∧
    (runDT req ff orc (some 0)).1.trace = [] ∧
    (runDT req ff orc (some 0)).2 = Outcome.cancelled ∧
    (∀ (title : Option String) (hooks : List Hook) (d1 d2 cv : Nat),
      orc.extract 0 (buildYdlOpts req ff) = ExtractR.ok title d1 →
      orc.download 0 (buildYdlOpts req ff) = DownloadR.ok hooks d2 →
      d1 < cv → cv ≤ d1 + hookDur hooks + d2 →
      (runDT req ff orc (some cv)).2 = Outcome.finished ∧
      (runDT req ff orc (some cv)).1.trace =
        hookEventsAt (some cv) hooks d1 ++ [Event.failed noFilesMsg] ∧
      cv ≤ (runDT req ff orc (some cv)).1.time) := by
  have h := runGo_none_term req ff orc hpl (maxRetries + 1) 0 (by omega) (by omega)
    none { time := 0, files := [], trace := [], calls := 0 }
  obtain ⟨hfin, l, hl, hterm⟩ := h
  refine ⟨?_, hfin, rfl, rfl, ?_⟩
  · simp only [runDT]
    simp only [runDT] at hl
    rw [hl]
    simpa using hterm
  · intro title hooks d1 d2 cv he hd h1 h2
    have hc0 : isCan (some cv) 0 = false := by
      simp only [isCan, decide_eq_false_iff_not]
      omega
    have hcd1 : isCan (some cv) d1 = false := by
      simp only [isCan, decide_eq_false_iff_not]
      omega
    have hcend : isCan (some cv) (d1 + hookDur hooks + d2) = true := by
      simp only [isCan, decide_eq_true_eq]
      omega
    simp only [runDT, runGo, hc0, Bool.false_eq_true, if_false, gt_iff_lt, Nat.lt_irrefl,
      ydlOptsAt_ok req ff 0 none (by omega), hpl, if_true, he, hd, processHooks_eq,
      tick, emit, Nat.zero_add, List.nil_append, hcd1, hcend, Bool.not_true, Bool.false_and]
    refine ⟨?_, ?_, ?_⟩ <;> trivial

/-- C2 counterexample, in two parts.  First: a playlist run whose first
entry fails and whose second entry succeeds emits a Failed entry event
followed by a final Completed event — two terminal events, with Failed not
last.  Second: a single-item run cancelled at 50 ms while its 100 ms
download is in flight observes the flag at the post-download check and
still emits a terminal Failed (the no-files message) at 100 ms, after the
flag was set — the same engine with no cancellation emits Completed
instead, so the observation is what produced the trailing terminal
event. -/
theorem terminal_events_cex :
    (runDT cexPlaylistReq none cexPlaylistOrc none).1.trace =
      [Event.failed "Failed to download uA: boom",
       Event.completed "2 videos from playlist" "f.mp4"] ∧
    ((runDT cexPlaylistReq none cexPlaylistOrc none).1.trace.filter isTerminalEv).length = 2 ∧
    (runDT wReq none cexMidCancelOrc (some 50)).1.trace = [Event.failed noFilesMsg] ∧
    (runDT wReq none cexMidCancelOrc (some 50)).1.time = 100 ∧
    (runDT wReq none cexMidCancelOrc (some 50)).2 = Outcome.finished ∧
    (runDT wReq none cexMidCancelOrc none).1.trace =
      [Event.completed "T" "v.mp4"] := by
  refine ⟨rfl, rfl, rfl, rfl, rfl, rfl⟩

/-- Witness for `single_item_one_terminal` on concrete requests and
engines, including the post-download-cancellation part. -/
theorem single_item_one_terminal_witness :
    OneTermLast (runDT wReq none wTimeoutOrc none).1.trace ∧
    (runDT wReq none wTimeoutOrc none).2 = Outcome.finished ∧
    (runDT wReq none wTimeoutOrc (some 0)).1.trace = [] ∧
    (runDT wReq none wTimeoutOrc (some 0)).2 = Outcome.cancelled ∧
    (runDT wReq none cexMidCancelOrc (some 50)).1.trace =
      hookEventsAt (some 50) [Hook.finished "v.mp4" 0] 0 ++ [Event.failed noFilesMsg] := by
  have h1 := single_item_one_terminal wReq none wTimeoutOrc rfl
  have h2 := (single_item_one_terminal wReq none cexMidCancelOrc rfl).2.2.2.2
    (some "T") [Hook.finished "v.mp4" 0] 0 100 50 rfl rfl (by omega) (by decide)
  exact ⟨h1.1, h1.2.1, h1.2.2.1, h1.2.2.2.1, h2.2.1⟩

end DS

namespace DS

/-- When the metadata call of every attempt raises a retryable error, the
attempt loop runs to exhaustion: it performs one engine call per remaining
attempt, appends exactly the `failTraceAux` events, and returns normally. -/
theorem runGo_allfail (req : Request) (ff : Option String) (orc : Oracle)
    (m : Nat → String) (d : Nat → Nat)
    (hpl : req.playlistEntries.isEmpty = true)
    (he : ∀ k, k ≤ maxRetries → orc.extract k (buildYdlOpts req ff) = ExtractR.raises (m k) (d k))
    (hr : ∀ k, k ≤ maxRetries → is_retryable_error (m k) = true) :
    ∀ fuel att, att + fuel = maxRetries + 1 → att ≤ maxRetries →
      ∀ (prev : Option YdlOpts) (st : St),
      (runGo req ff orc none fuel att prev st).1.trace = st.trace ++ failTraceAux m fuel att ∧
      (runGo req ff orc none fuel att prev st).1.calls = st.calls + fuel ∧
      (runGo req ff orc none fuel att prev st).2 = Outcome.finished := by
  intro fuel
  induction fuel with
  | zero =>
    intro att h1 h2 prev st
    exfalso
    simp [maxRetries] at h1 h2
    omega
  | succ fuel ih =>
    intro att h1 h2 prev st
    have hatt3 : att ≤ 3 := by simpa [maxRetries] using h2
    have hopts := ydlOptsAt_ok req ff att prev hatt3
    rw [runGo]
    simp only [hopts, hpl, isCan_none, Bool.false_eq_true, if_false, if_true,
      he att h2]
    by_cases hlt : att < maxRetries
    · have hb : (is_retryable_error (m att) && decide (att < maxRetries)) = true := by
        rw [hr att h2]
        simp [hlt]
      rw [handleErr_none_inl att (m att) _ hb]
      obtain ⟨htr, hcalls, hfin⟩ :=
        ih (att + 1) (by omega) (by simp [maxRetries] at hlt ⊢; omega)
          (some (buildYdlOpts req ff)) _
      refine ⟨?_, ?_, hfin⟩
      · rw [htr]
        simp only [tick, emit, failTraceAux, if_pos hlt]
        split <;> simp [List.append_assoc]
      · rw [hcalls]
        simp only [tick, emit]
        split <;> (try simp [emit]) <;> omega
    · have hb : (is_retryable_error (m att) && decide (att < maxRetries)) = false := by
        simp [hlt]
      rw [handleErr_none_inr att (m att) _ hb]
      have hfuel0 : fuel = 0 := by
        simp [maxRetries] at hlt h1
        omega
      subst hfuel0
      refine ⟨?_, ?_, rfl⟩
      · simp only [emit, tick, failTraceAux, if_neg hlt]
        split <;> simp [List.append_assoc]
      · simp only [emit, tick]
        split <;> (try simp [emit])
  
end DS

namespace DS

/-- C1: with the default `max_retries = 3` and an engine that raises a
retryable error on every attempt, the run makes exactly 4 engine calls
(initial + 3 retries) and then returns normally; the only terminal event is
the final Failed, whose message contains the attempt count "4"; exactly 3
retry announcements (the Retrying events of the spec, carrying attempt /
max_retries / message, line 177) are emitted — together with 3 additional
"Retrying download..." notices on the same `retry_status` signal
(line 59). -/
theorem retry_exhaustion (req : Request) (ff : Option String) (orc : Oracle)
    (m : Nat → String) (d : Nat → Nat)
    (hpl : req.playlistEntries.isEmpty = true)
    (he : ∀ k, k ≤ maxRetries → orc.extract k (buildYdlOpts req ff) = ExtractR.raises (m k) (d k))
    (hr : ∀ k, k ≤ maxRetries → is_retryable_error (m k) = true) :
    (runDT req ff orc none).1.trace =
      cleanupPart (m 0) ++ [Event.retryStatus 1 4 ("Failed: " ++ m 0),
        Event.retryStatus 2 3 "Retrying download..."] ++ cleanupPart (m 1) ++
      [Event.retryStatus 2 4 ("Failed: " ++ m 1),
        Event.retryStatus 3 3 "Retrying download..."] ++ cleanupPart (m 2) ++
      [Event.retryStatus 3 4 ("Failed: " ++ m 2),
        Event.retryStatus 4 3 "Retrying download...",
        Event.failed (finalFailMsg 3 (m 3))] ∧
    (runDT req ff orc none).1.calls = 4 ∧
    (runDT req ff orc none).2 = Outcome.finished ∧
    ((runDT req ff orc none).1.trace.filter isRetryAnnounce).length = 3 ∧
    ((runDT req ff orc none).1.trace.filter isRetryNotice).length = 3 ∧
    (runDT req ff orc none).1.trace.filter isTerminalEv =
      [Event.failed (finalFailMsg 3 (m 3))] ∧
    containsSub "4".toList (finalFailMsg 3 (m 3)).toList = true := by
  obtain ⟨htr, hcalls, hfin⟩ := runGo_allfail req ff orc m d hpl he hr (maxRetries + 1) 0
    (by omega) (by omega) none ⟨0, [], [], 0⟩
  have hnest : failTraceAux m (maxRetries + 1) 0 =
    ([] ++ (cleanupPart (m 0) ++ [Event.retryStatus 1 4 ("Failed: " ++ m 0)] ++
      ([Event.retryStatus 2 3 "Retrying download..."] ++ (cleanupPart (m 1) ++
        [Event.retryStatus 2 4 ("Failed: " ++ m 1)] ++
        ([Event.retryStatus 3 3 "Retrying download..."] ++ (cleanupPart (m 2) ++
          [Event.retryStatus 3 4 ("Failed: " ++ m 2)] ++
          ([Event.retryStatus 4 3 "Retrying download..."] ++
            [Event.failed (finalFailMsg 3 (m 3))]))))))) := rfl
  have hflat : (runDT req ff orc none).1.trace =
      cleanupPart (m 0) ++ [Event.retryStatus 1 4 ("Failed: " ++ m 0),
        Event.retryStatus 2 3 "Retrying download..."] ++ cleanupPart (m 1) ++
      [Event.retryStatus 2 4 ("Failed: " ++ m 1),
        Event.retryStatus 3 3 "Retrying download..."] ++ cleanupPart (m 2) ++
      [Event.retryStatus 3 4 ("Failed: " ++ m 2),
        Event.retryStatus 4 3 "Retrying download...",
        Event.failed (finalFailMsg 3 (m 3))] := by
    simp only [runDT]
    rw [htr, hnest]
    simp [List.append_assoc]
  have hcalls4 : (runDT req ff orc none).1.calls = 4 := by
    simp only [runDT]
    rw [hcalls]
    rfl
  refine ⟨hflat, hcalls4, hfin, ?_, ?_, ?_, ?_⟩
  · rw [hflat]
    simp [List.filter_append, cleanupPart, apply_ite (List.filter isRetryAnnounce),
      isRetryAnnounce, maxRetries]
  · rw [hflat]
    simp [List.filter_append, cleanupPart, apply_ite (List.filter isRetryNotice),
      isRetryNotice, maxRetries]
  · rw [hflat]
    simp [List.filter_append, cleanupPart, apply_ite (List.filter isTerminalEv),
      isTerminalEv]
  · refine (containsSub_iff _ _).mpr
      ⟨"Download failed after ".toList, " attempts. Last error: ".toList ++ (m 3).toList, ?_⟩
    have h4 : toString (3 + 1) = "4" := rfl
    simp [finalFailMsg, h4, String.toList, String.data_append, List.append_assoc]

/-- Witness for `retry_exhaustion` with a concrete engine raising
"timeout" on every attempt. -/
theorem retry_exhaustion_witness :
    (runDT wReq none wTimeoutOrc none).1.calls = 4 ∧
    ((runDT wReq none wTimeoutOrc none).1.trace.filter isRetryAnnounce).length = 3 ∧
    ((runDT wReq none wTimeoutOrc none).1.trace.filter isRetryNotice).length = 3 := by
  have h := retry_exhaustion wReq none wTimeoutOrc (fun _ => "timeout") (fun _ => 0) rfl
    (fun _ _ => rfl) (fun _ _ => rfl)
  exact ⟨h.2.1, h.2.2.2.1, h.2.2.2.2.1⟩

end DS

namespace DS

/-- A backoff entered at time `t` with the flag set at `cv > t`: either
some of its five per-second reads observes the flag — at a time in
`[cv, cv + 1000)` — or the flag was set in the final second and the loop
completes at `t + 5000`. -/
theorem backoffSleep5_cases (cv t : Nat) (f : List String) (tr : List Event) (cl : Nat)
    (h1 : t < cv) :
    (cv ≤ t + 4000 → ∃ T, backoffSleep (some cv) retryDelay ⟨t, f, tr, cl⟩ =
      (⟨T, f, tr, cl⟩, true) ∧ cv ≤ T ∧ T < cv + 1000) ∧
    (t + 4000 < cv → backoffSleep (some cv) retryDelay ⟨t, f, tr, cl⟩ =
      (⟨t + 5000, f, tr, cl⟩, false)) := by
  simp only [retryDelay, backoffSleep, isCan, tick, decide_eq_true_eq]
  split_ifs with c0 c1 c2 c3 c4
  · omega
  · exact ⟨fun _ => ⟨t + 1000, rfl, by omega, by omega⟩, fun h => absurd c1 (by omega)⟩
  · exact ⟨fun _ => ⟨t + 1000 + 1000, rfl, by omega, by omega⟩, fun h => absurd c2 (by omega)⟩
  · exact ⟨fun _ => ⟨t + 1000 + 1000 + 1000, rfl, by omega, by omega⟩,
      fun h => absurd c3 (by omega)⟩
  · exact ⟨fun _ => ⟨t + 1000 + 1000 + 1000 + 1000, rfl, by omega, by omega⟩,
      fun h => absurd c4 (by omega)⟩
  · refine ⟨fun h => absurd h (by omega), fun _ => ?_⟩
    simp only [Prod.mk.injEq, St.mk.injEq, and_true, true_and]

end DS

namespace DS

/-- C4: a single-item job whose first attempt raises a retryable error at
model time `d` and is cancelled at time `cv` during the 5-second backoff
emits nothing after the flag is set — its whole trace is the pre-cancel
cleanup marker and retry announcement — and the run returns (cancelled) at
a model time at most one second after the cancel instant, because the
backoff sleeps in interruptible 1-second slices re-checking the flag. -/
theorem backoff_cancel_prompt (req : Request) (ff : Option String) (orc : Oracle)
    (msg : String) (d cv : Nat)
    (hpl : req.playlistEntries.isEmpty = true)
    (he : orc.extract 0 (buildYdlOpts req ff) = ExtractR.raises msg d)
    (hr : is_retryable_error msg = true)
    (h1 : d < cv) (h2 : cv ≤ d + 5000) :
    (runDT req ff orc (some cv)).2 = Outcome.cancelled ∧
    (runDT req ff orc (some cv)).1.trace =
      cleanupPart msg ++ [Event.retryStatus 1 4 ("Failed: " ++ msg)] ∧
    (runDT req ff orc (some cv)).1.time ≤ cv + 1000 := by
  have hc0 : isCan (some cv) 0 = false := by
    simp only [isCan, decide_eq_false_iff_not]
    omega
  have hb : (is_retryable_error msg && decide (0 < maxRetries)) = true := by
    rw [hr]
    simp [maxRetries]
  have hcend : isCan (some cv) (d + 5000) = true := by
    simp only [isCan, decide_eq_true_eq]
    omega
  simp only [runDT, runGo, hc0, Bool.false_eq_true, if_false,
    ydlOptsAt_ok req ff 0 none (by omega), hpl, if_true, gt_iff_lt, Nat.lt_irrefl, he,
    handleErr, hb, Nat.zero_add, tick, emit, List.nil_append, List.cons_append]
  cases hcln : needsRangeCleanup msg <;>
    simp only [Bool.false_eq_true, if_false, if_true, emit, List.nil_append,
      List.cons_append] <;>
    rcases le_or_lt cv (d + 4000) with hle | hgt
  · obtain ⟨T, hbs, hT1, hT2⟩ :=
      (backoffSleep5_cases cv d [] [Event.retryStatus 1 (maxRetries + 1)
        ("Failed: " ++ msg)] 1 h1).1 hle
    rw [hbs]
    simp only []
    refine ⟨trivial, ?_, by omega⟩
    simp [cleanupPart, hcln, maxRetries]
  · rw [(backoffSleep5_cases cv d [] [Event.retryStatus 1 (maxRetries + 1)
      ("Failed: " ++ msg)] 1 h1).2 hgt]
    simp only [hcend, if_true]
    refine ⟨trivial, ?_, by omega⟩
    simp [cleanupPart, hcln, maxRetries]
  · obtain ⟨T, hbs, hT1, hT2⟩ :=
      (backoffSleep5_cases cv d [] [Event.cleanup, Event.retryStatus 1 (maxRetries + 1)
        ("Failed: " ++ msg)] 1 h1).1 hle
    rw [hbs]
    simp only []
    refine ⟨trivial, ?_, by omega⟩
    simp [cleanupPart, hcln, maxRetries]
  · rw [(backoffSleep5_cases cv d [] [Event.cleanup, Event.retryStatus 1 (maxRetries + 1)
      ("Failed: " ++ msg)] 1 h1).2 hgt]
    simp only [hcend, if_true]
    refine ⟨trivial, ?_, by omega⟩
    simp [cleanupPart, hcln, maxRetries]

end DS

namespace DS

/-- Witness for `backoff_cancel_prompt`: cancel at 1ms while the first
backoff second is being slept. -/
theorem backoff_cancel_prompt_witness :
    (runDT wReq none wTimeoutOrc (some 1)).2 = Outcome.cancelled ∧
    (runDT wReq none wTimeoutOrc (some 1)).1.trace =
      cleanupPart "timeout" ++ [Event.retryStatus 1 4 ("Failed: " ++ "timeout")] ∧
    (runDT wReq none wTimeoutOrc (some 1)).1.time ≤ 1 + 1000 :=
  backoff_cancel_prompt wReq none wTimeoutOrc "timeout" 0 1 rfl rfl rfl
    (by omega) (by omega)

/-- Hook progress events never include retry-status emissions. -/
theorem hookProgress_filter_retrySt (hooks : List Hook) :
    (hookProgress hooks).filter isRetrySt = [] := by
  induction hooks with
  | nil => rfl
  | cons h hs ih => cases h <;> simp [hookProgress, isRetrySt, ih]

/-- C8: when the metadata and download calls of the first attempt succeed but no
file was recorded by the finished callback, the run emits the distinct
"no files were found" Failed message and returns at once: two engine calls
in total, no retry-status emission, loop exited despite remaining
attempts. -/
theorem success_no_files_fails (req : Request) (ff : Option String) (orc : Oracle)
    (title : Option String) (hooks : List Hook) (d1 d2 : Nat)
    (hpl : req.playlistEntries.isEmpty = true)
    (he : orc.extract 0 (buildYdlOpts req ff) = ExtractR.ok title d1)
    (hd : orc.download 0 (buildYdlOpts req ff) = DownloadR.ok hooks d2)
    (hf : hookFiles hooks [] = []) :
    (runDT req ff orc none).1.trace = hookProgress hooks ++ [Event.failed noFilesMsg] ∧
    (runDT req ff orc none).1.calls = 2 ∧
    (runDT req ff orc none).2 = Outcome.finished ∧
    (runDT req ff orc none).1.trace.filter isRetrySt = [] := by
  have htr : (runDT req ff orc none).1.trace = hookProgress hooks ++ [Event.failed noFilesMsg] ∧
      (runDT req ff orc none).1.calls = 2 ∧
      (runDT req ff orc none).2 = Outcome.finished := by
    simp only [runDT, runGo, isCan_none, Bool.false_eq_true, if_false, gt_iff_lt,
      Nat.lt_irrefl, ydlOptsAt_ok req ff 0 none (by omega), hpl, if_true, he, hd,
      processHooks_none, tick, emit, hf, List.isEmpty_nil, Bool.not_true, Bool.not_false,
      Bool.true_and, Bool.false_eq_true, List.nil_append, Nat.zero_add]
    refine ⟨?_, ?_, ?_⟩ <;> trivial
  refine ⟨htr.1, htr.2.1, htr.2.2, ?_⟩
  rw [htr.1]
  simp [List.filter_append, hookProgress_filter_retrySt, isRetrySt]

/-- Witness for `success_no_files_fails` with a concrete engine reporting
success and no finished files. -/
theorem success_no_files_fails_witness :
    (runDT wReq none wNoFilesOrc none).1.trace = [Event.failed noFilesMsg] ∧
    (runDT wReq none wNoFilesOrc none).1.calls = 2 := by
  have h := success_no_files_fails wReq none wNoFilesOrc (some "T") [] 0 0 rfl rfl rfl rfl
  exact ⟨by simpa using h.1, h.2.1⟩

/-- The playlist branch never produces the crashed outcome. -/
theorem runPlaylistBody_not_crashed (orc : Oracle) (c : Option Nat) (req : Request)
    (opts : YdlOpts) (st : St) (msg : String) :
    (runPlaylistBody orc c req opts st).2 ≠ Outcome.crashed msg := by
  simp only [runPlaylistBody]
  split
  · simp
  · split <;> simp

/-- The returning alternative of the error handler never carries the crashed
outcome. -/
theorem handleErr_inr_outcome (c : Option Nat) (att : Nat) (msg : String) (st : St) :
    ∀ (st' : St) (out : Outcome) (m : String),
      handleErr c att msg st = Sum.inr (st', out) → out ≠ Outcome.crashed m := by
  intro st' out m h
  unfold handleErr at h
  simp only [] at h
  split at h
  · split at h
    · simp only [Sum.inr.injEq, Prod.mk.injEq] at h
      rw [← h.2]
      simp
    · simp at h
  · split at h
    · simp only [Sum.inr.injEq, Prod.mk.injEq] at h
      rw [← h.2]
      simp
    · simp only [Sum.inr.injEq, Prod.mk.injEq] at h
      rw [← h.2]
      simp

/-- For any engine, request and cancellation schedule, no iteration of the
attempt loop reaches the `NameError` of the dead branch: the loop never
crashes. -/
theorem runGo_not_crashed (req : Request) (ff : Option String) (orc : Oracle)
    (c : Option Nat) : ∀ fuel att, att + fuel ≤ maxRetries + 1 →
      ∀ (prev : Option YdlOpts) (st : St) (msg : String),
      (runGo req ff orc c fuel att prev st).2 ≠ Outcome.crashed msg := by
  intro fuel
  induction fuel with
  | zero => intro att h prev st msg; simp [runGo]
  | succ fuel ih =>
    intro att h prev st msg
    have hatt : att ≤ 3 := by simp [maxRetries] at h; omega
    rw [runGo]
    simp only [ydlOptsAt_ok req ff att prev hatt]
    generalize (if att > 0 then
      emit st (Event.retryStatus (att + 1) maxRetries "Retrying download...") else st) = st1
    split
    · simp
    · split
      · simp
      · split
        · cases orc.extract att (buildYdlOpts req ff) with
          | raises m d =>
            simp only []
            split
            · exact ih (att + 1) (by omega) _ _ msg
            · rename_i r heq
              obtain ⟨st2, out⟩ := r
              exact handleErr_inr_outcome c att m _ st2 out msg heq
          | ok title d =>
            simp only []
            split
            · simp
            · cases orc.download att (buildYdlOpts req ff) with
              | raises hooks m d2 =>
                simp only []
                split
                · exact ih (att + 1) (by omega) _ _ msg
                · rename_i r heq
                  obtain ⟨st2, out⟩ := r
                  exact handleErr_inr_outcome c att m _ st2 out msg heq
              | ok hooks d2 =>
                simp only []
                split <;> simp
        · exact runPlaylistBody_not_crashed _ _ _ _ _ msg

/-- C10: with the default `max_retries = 3` the loop indices are exactly
0..3, so the branch guarded by `attempt > 3` is unreachable: the options in
scope at every attempt are the freshly built dictionary, `ydl_opts` is
never read before assignment, and no run ever ends in the modelled
`NameError` crash. -/
theorem dead_branch_unreachable :
    (∀ a ∈ List.range (maxRetries + 1), ¬ a > 3) ∧
    (∀ (req : Request) (ff : Option String) (a : Nat) (prev : Option YdlOpts),
      a ∈ List.range (maxRetries + 1) →
      ydlOptsAt req ff a prev = Except.ok (buildYdlOpts req ff)) ∧
    (∀ (req : Request) (ff : Option String) (orc : Oracle) (c : Option Nat) (msg : String),
      (runDT req ff orc c).2 ≠ Outcome.crashed msg) := by
  refine ⟨by decide, ?_, ?_⟩
  · intro req ff a prev ha
    have ha4 : a < 4 := by simpa [List.mem_range, maxRetries] using ha
    exact ydlOptsAt_ok req ff a prev (by omega)
  · intro req ff orc c msg
    exact runGo_not_crashed req ff orc c (maxRetries + 1) 0 (by omega) none _ msg

/-- Witness for `dead_branch_unreachable` at concrete inputs. -/
theorem dead_branch_unreachable_witness :
    ydlOptsAt wReq none 2 none = Except.ok (buildYdlOpts wReq none) ∧
    (runDT wReq none wTimeoutOrc none).2 ≠ Outcome.crashed "NameError" :=
  ⟨dead_branch_unreachable.2.1 wReq none 2 none (by decide),
   dead_branch_unreachable.2.2 wReq none wTimeoutOrc none "NameError"⟩

end DS
